import Mathlib

/-!
Verification of the proxy server (src/proxy_server.py) of the
tubes-jarkom repository, against its natural-language specification.

The embedding models the two relay paths of the proxy:

TCP path (`handle_tcp_client`): the inbound byte stream is a list of
chunks as returned by successive `recv(4096)` calls; an exhausted chunk
list models the peer closing the connection (recv returning empty).
The upstream attempt on a cache MISS is abstracted as an oracle value:
either the full response byte sequence read until upstream close, or a
timeout, or another socket error.  The shared `HTTP_CACHE` dictionary is
an association list keyed by the raw request bytes, with insertion at
the front (the most recent binding shadows older ones, as dictionary
assignment does).

UDP path (`udp_proxy_server`): one loop iteration is driven by an
environment record giving the outcome of each socket operation of that
iteration (`recvfrom` from a client, `sendto` upstream, `recvfrom` for
the reply, `sendto` back to the client) together with the two clock
readings taken by the iteration.  An uncaught exception would terminate
the loop thread, so the iteration function returns `Except`: an
`Except.error` escaping the iteration models loop death, and the loop
runner stops early when it sees one.

Bytes are natural numbers (the values 13 and 10 standing for CR and
LF); socket addresses are host/port pairs of naturals.
-/

/-- Bytes as read from a socket. -/
abbrev Byte := Nat

/-- A socket address: host and port. -/
abbrev Addr := Nat × Nat

/-- Checks whether the pattern `pat` occurs at the head of `l`. -/
def startsWith : List Byte → List Byte → Bool
  | [], _ => true
  | _ :: _, [] => false
  | a :: as, b :: bs => (a == b) && startsWith as bs

/-- Embedding of the Python test `b"\r\n\r\n" in req`: the four byte
values 13, 10, 13, 10 occur consecutively somewhere in the list. -/
def hasTerminator : List Byte → Bool
  | [] => false
  | l@(_ :: t) => startsWith [13, 10, 13, 10] l || hasTerminator t

/-- Embedding of the request-reading loop of `handle_tcp_client`
(src/proxy_server.py lines 67-75): starting from the accumulated bytes
`acc`, consume chunks until a `recv` returns empty (an empty chunk, or
the chunk list running out) or the accumulated buffer contains the
CRLFCRLF terminator. -/
def readRequestAux (acc : List Byte) : List (List Byte) → List Byte
  | [] => acc
  | c :: cs =>
      if c.isEmpty then acc
      else
        let acc2 := acc ++ c
        if hasTerminator acc2 then acc2 else readRequestAux acc2 cs

/-- The complete request bytes `req` read by `handle_tcp_client` from
the inbound chunk stream. -/
def readRequest (chunks : List (List Byte)) : List Byte :=
  readRequestAux [] chunks

/-- The shared `HTTP_CACHE` dictionary: request bytes mapped to response
bytes.  Represented as an association list; the first binding for a key
is the current one. -/
abbrev Cache := List (List Byte × List Byte)

/-- Embedding of `HTTP_CACHE.get(req)` (line 82). -/
def cacheGet (c : Cache) (k : List Byte) : Option (List Byte) :=
  (c.find? (fun p => p.1 == k)).map (fun p => p.2)

/-- Embedding of `HTTP_CACHE[req] = resp` (line 104): dictionary
assignment, the new binding shadowing any older one. -/
def cacheStore (c : Cache) (k v : List Byte) : Cache :=
  (k, v) :: c

/-- Outcome of the single upstream attempt made on a cache MISS
(lines 90-100): either the concatenation of all chunks read until the
upstream closed, or a `socket.timeout`, or another socket exception
(connection refused, reset, ...). -/
inductive UpstreamResult
  | ok (resp : List Byte)
  | timedOut
  | failed
deriving DecidableEq, Repr

/-- Log tag of one TCP handling, as emitted by `handle_tcp_client`. -/
inductive TcpTag
  | quiet     -- nothing read: plain return, no log line
  | hit       -- logging.info with cache=HIT
  | miss      -- logging.info with cache=MISS
  | errLog    -- logging.error in the except clause
deriving DecidableEq, Repr

/-- Result of one run of `handle_tcp_client` on one inbound connection:
the `sendall` calls made to the client in order, the cache contents
afterwards, whether an upstream connection was attempted, and the log
tag. -/
structure TcpResult where
  writes : List (List Byte)
  cache : Cache
  upstream : Bool
  tag : TcpTag
deriving DecidableEq, Repr

/-- Embedding of `handle_tcp_client` (src/proxy_server.py lines 55-115),
for one inbound connection. Faithful to the source:
read the request; if empty, return without writing; otherwise look the
raw request bytes up in the cache; on a HIT send the cached bytes; on a
MISS attempt upstream, and if the attempt raises (timeout or any other
socket error) the except clause only logs, so nothing is written to the
client and the cache is unchanged; on upstream success the response is
stored and then sent. -/
def handleTcp (chunks : List (List Byte)) (up : UpstreamResult) (cache : Cache) :
    TcpResult :=
  let req := readRequest chunks
  if req = [] then
    { writes := [], cache := cache, upstream := false, tag := .quiet }
  else
    match cacheGet cache req with
    | some cached =>
        { writes := [cached], cache := cache, upstream := false, tag := .hit }
    | none =>
        match up with
        | .ok resp =>
            { writes := [resp], cache := cacheStore cache req resp,
              upstream := true, tag := .miss }
        | .timedOut =>
            { writes := [], cache := cache, upstream := true, tag := .errLog }
        | .failed =>
            { writes := [], cache := cache, upstream := true, tag := .errLog }

/-- Outcome of one socket operation as an exception kind:
`socket.timeout` or some other exception. -/
inductive SockErr
  | timedOut
  | other
deriving DecidableEq, Repr

/-- Log line emitted by one iteration of the UDP loop. -/
inductive UdpLog
  | quiet                     -- client-recv timeout: no line, just re-enter the wait
  | recvClientErr             -- logging.error in the recvfrom(client) except clause
  | sendUpErr                 -- logging.error in the sendto(webserver) except clause
  | timeoutWarn (client : Addr)  -- logging.warning on upstream timeout
  | relayErr                  -- logging.error in the recvfrom/sendto(client) except clause
  | relayed (client : Addr) (server : Addr) (reqLen : Nat) (rtt : Int)
deriving DecidableEq, Repr

/-- Observable outcome of one iteration of the UDP loop body: the
successful `sendto` calls made, as payload/destination pairs in order,
and the log line. -/
structure UdpOut where
  sent : List (List Byte × Addr)
  log : UdpLog
deriving DecidableEq, Repr

/-- Environment of one UDP loop iteration: the outcome the network
hands to each socket call of that iteration, and the two `time.time()`
readings `t0` (before the upstream send) and `t1` (after the upstream
reply). -/
structure UdpEnv where
  recvClient : Except SockErr (List Byte × Addr)
  sendUp : Except SockErr Unit
  recvUp : Except SockErr (List Byte × Addr)
  sendBack : Except SockErr Unit
  t0 : Nat
  t1 : Nat

/-- Embedding of one iteration of the body of `udp_proxy_server`
(src/proxy_server.py lines 152-183).  Every socket call sits inside a
try-block of the source, and each except clause of the source appears
here as a match arm producing `Except.ok` (the loop continues); an
`Except.error` result would model an exception escaping the iteration
and killing the loop thread.  Faithful points: the sendto-to-upstream
except clause catches every exception kind; the reply phase catches
`socket.timeout` separately (warning, no send to the client) and any
other exception of `recvfrom` or of the `sendto` back to the client
with an error log; on success the reply payload is sent, unchanged, to
the recorded client address, and the logged line carries the reply
sender address, the request length and `(t1 - t0)`. -/
def udpIter (target : Addr) (env : UdpEnv) : Except SockErr UdpOut :=
  match env.recvClient with
  | .error .timedOut => .ok { sent := [], log := .quiet }
  | .error .other => .ok { sent := [], log := .recvClientErr }
  | .ok (data, clientAddr) =>
    match env.sendUp with
    | .error _ => .ok { sent := [], log := .sendUpErr }
    | .ok _ =>
      match env.recvUp with
      | .error .timedOut =>
          .ok { sent := [(data, target)], log := .timeoutWarn clientAddr }
      | .error .other =>
          .ok { sent := [(data, target)], log := .relayErr }
      | .ok (resp, serverAddr) =>
        match env.sendBack with
        | .error _ =>
            .ok { sent := [(data, target)], log := .relayErr }
        | .ok _ =>
            .ok { sent := [(data, target), (resp, clientAddr)],
                  log := .relayed clientAddr serverAddr data.length
                           (Int.ofNat env.t1 - Int.ofNat env.t0) }

/-- Runs the UDP loop over a finite schedule of iteration environments.
The loop itself is `while True`; an `Except.error` escaping one
iteration would terminate the loop thread, which the runner records by
stopping early with the flag `true`.  Returns the outputs of the
iterations that ran and whether the loop died. -/
def udpLoopRun (target : Addr) : List UdpEnv → List UdpOut × Bool
  | [] => ([], false)
  | e :: es =>
      match udpIter target e with
      | .ok out =>
          let rest := udpLoopRun target es
          (out :: rest.1, rest.2)
      | .error _ => ([], true)

/-- Outcome of a listener thread body: `tcp_proxy_server` and
`udp_proxy_server` both bind their socket and then enter a `while True`
loop, so the body either raises out of `bind` (ending the thread with a
logged traceback) or never returns. -/
inductive ThreadEnd
  | died          -- bind raised; the thread terminates
  | runsForever   -- bind succeeded; the serve loop never exits
deriving DecidableEq, Repr

/-- Behaviour of one listener thread as a function of whether its bind
succeeds (src/proxy_server.py lines 123-134 and 147-183): no retry, no
handling around `bind`, and the serve loop has no exit path. -/
def listenerBody (bindOk : Bool) : ThreadEnd :=
  if bindOk then .runsForever else .died

/-- Observable fate of the proxy process. -/
inductive ProcOutcome
  | exited (code : Nat)   -- main returned; process exit status
  | hangs                 -- main blocks forever in a join
deriving DecidableEq, Repr

/-- Embedding of `main` (src/proxy_server.py lines 186-214): both
listener threads are started, then main joins the TCP thread and then
the UDP thread.  A join on a thread that runs forever blocks forever; a
thread whose body raised has already ended, its exception printed by
the threading runtime without touching the process exit status.  Main
itself raises nothing, so if both joins return the process exits with
status 0. -/
def mainProc (tcpBindOk udpBindOk : Bool) : ProcOutcome :=
  match listenerBody tcpBindOk with
  | .runsForever => .hangs
  | .died =>
      match listenerBody udpBindOk with
      | .runsForever => .hangs
      | .died => .exited 0

/-- Sequential handling of a list of further inbound connections, each
given as its chunk stream and upstream oracle; returns the cache left
behind.  Models later traffic through the proxy between two requests of
interest. -/
def runMany : List (List (List Byte) × UpstreamResult) → Cache → Cache
  | [], c => c
  | p :: ps, c => runMany ps (handleTcp p.1 p.2 c).cache

/-- Storing a key makes it the current binding. -/
theorem cacheGet_store_self (c : Cache) (k v : List Byte) :
    cacheGet (cacheStore c k v) k = some v := by
  simp [cacheGet, cacheStore, List.find?]

/-- Storing one key leaves lookups of a different key unchanged. -/
theorem cacheGet_store_ne (c : Cache) (k k2 v : List Byte) (h : k ≠ k2) :
    cacheGet (cacheStore c k v) k2 = cacheGet c k2 := by
  have hb : (k == k2) = false := beq_eq_false_iff_ne.mpr h
  simp [cacheGet, cacheStore, List.find?, hb]

/-- Handling any further connection preserves an existing cache
binding: the handler never removes or overwrites a key it finds
present (a present key is a HIT, which does not store). -/
theorem cacheGet_handleTcp (chunks : List (List Byte)) (up : UpstreamResult)
    (c : Cache) (k v : List Byte) (h : cacheGet c k = some v) :
    cacheGet (handleTcp chunks up c).cache k = some v := by
  by_cases hreq : readRequest chunks = []
  · simpa [handleTcp, hreq] using h
  · rcases hc : cacheGet c (readRequest chunks) with _ | cached
    · rcases up with resp | _ | _
      · have hnk : readRequest chunks ≠ k := by
          intro e
          rw [e, h] at hc
          cases hc
        simpa [handleTcp, hreq, hc, cacheGet_store_ne _ _ _ _ hnk] using h
      · simpa [handleTcp, hreq, hc] using h
      · simpa [handleTcp, hreq, hc] using h
    · simpa [handleTcp, hreq, hc] using h

/-- Any amount of later traffic preserves an existing cache binding. -/
theorem cacheGet_runMany (traffic : List (List (List Byte) × UpstreamResult))
    (c : Cache) (k v : List Byte) (h : cacheGet c k = some v) :
    cacheGet (runMany traffic c) k = some v := by
  induction traffic generalizing c with
  | nil => exact h
  | cons p ps ih => exact ih _ (cacheGet_handleTcp _ _ _ _ _ h)

/-- C1: a request whose raw bytes were already served on a cache MISS
with upstream response `resp` is, when handled again with the upstream
unchanged, a cache HIT: no upstream connection is opened, the HIT log
line is emitted, and the bytes written to the inbound connection are
exactly the bytes written for the first handling. -/
theorem tcp_repeat_request_hit (chunks : List (List Byte)) (resp : List Byte)
    (cache : Cache)
    (hne : readRequest chunks ≠ [])
    (hmiss : cacheGet cache (readRequest chunks) = none) :
    (handleTcp chunks (.ok resp) ((handleTcp chunks (.ok resp) cache).cache)).upstream
      = false ∧
    (handleTcp chunks (.ok resp) ((handleTcp chunks (.ok resp) cache).cache)).tag
      = .hit ∧
    (handleTcp chunks (.ok resp) ((handleTcp chunks (.ok resp) cache).cache)).writes
      = (handleTcp chunks (.ok resp) cache).writes := by
  refine ⟨?_, ?_, ?_⟩ <;> simp [handleTcp, hne, hmiss, cacheGet_store_self]

/-- C1 witness at a concrete request, response and empty cache. -/
theorem tcp_repeat_request_hit_witness :
    (handleTcp [[13, 10, 13, 10]] (.ok [72])
        ((handleTcp [[13, 10, 13, 10]] (.ok [72]) []).cache)).upstream = false ∧
    (handleTcp [[13, 10, 13, 10]] (.ok [72])
        ((handleTcp [[13, 10, 13, 10]] (.ok [72]) []).cache)).tag = .hit ∧
    (handleTcp [[13, 10, 13, 10]] (.ok [72])
        ((handleTcp [[13, 10, 13, 10]] (.ok [72]) []).cache)).writes
      = (handleTcp [[13, 10, 13, 10]] (.ok [72]) []).writes :=
  tcp_repeat_request_hit [[13, 10, 13, 10]] [72] [] (by decide) (by decide)

/-- C2 counterexample: a complete request (terminator present) was
read, the upstream attempt times out, and yet the handler writes
nothing at all to the inbound connection — no 504 Gateway Timeout is
synthesized; likewise for any other upstream failure no 502 is
written.  The inbound peer is left without any reply: the except
clause of `handle_tcp_client` only logs and then closes the socket. -/
theorem tcp_gateway_response_cx :
    readRequest [[13, 10, 13, 10]] ≠ [] ∧
    (handleTcp [[13, 10, 13, 10]] .timedOut []).writes = [] ∧
    (handleTcp [[13, 10, 13, 10]] .timedOut []).tag = .errLog ∧
    (handleTcp [[13, 10, 13, 10]] .failed []).writes = [] ∧
    (handleTcp [[13, 10, 13, 10]] .failed []).tag = .errLog := by decide

/-- C2 amended: on upstream timeout, as on any other upstream failure,
the handler does not synthesize any response: it writes no bytes to the
inbound connection, emits an error log line, leaves the cache
unchanged, and closes the connection — the inbound peer that sent a
complete request is left without any reply. -/
theorem tcp_upstream_failure_silent (chunks : List (List Byte)) (cache : Cache)
    (up : UpstreamResult)
    (hne : readRequest chunks ≠ [])
    (hmiss : cacheGet cache (readRequest chunks) = none)
    (hup : up = .timedOut ∨ up = .failed) :
    (handleTcp chunks up cache).writes = [] ∧
    (handleTcp chunks up cache).tag = .errLog ∧
    (handleTcp chunks up cache).cache = cache := by
  rcases hup with h | h <;> subst h <;> simp [handleTcp, hne, hmiss]

/-- C2 amended witness at a concrete complete request and a timed-out
upstream. -/
theorem tcp_upstream_failure_silent_witness :
    (handleTcp [[13, 10, 13, 10]] .timedOut []).writes = [] ∧
    (handleTcp [[13, 10, 13, 10]] .timedOut []).tag = .errLog ∧
    (handleTcp [[13, 10, 13, 10]] .timedOut []).cache = [] :=
  tcp_upstream_failure_silent [[13, 10, 13, 10]] [] .timedOut
    (by decide) (by decide) (Or.inl rfl)

/-- C7 counterexample: the peer closes after sending only the three
bytes G, E, T — no header terminator ever arrives — and yet the handler
does not stay silent: it contacts the upstream and writes the upstream
response back to the inbound connection.  Only a connection on which
nothing at all was read is closed without a response. -/
theorem tcp_partial_request_cx :
    hasTerminator (readRequest [[71, 69, 84]]) = false ∧
    readRequest [[71, 69, 84]] ≠ [] ∧
    (handleTcp [[71, 69, 84]] (.ok [72]) []).upstream = true ∧
    (handleTcp [[71, 69, 84]] (.ok [72]) []).writes = [[72]] := by decide

/-- C7 amended: only when nothing at all was read from the inbound
connection (the peer closed before sending any byte) does the handler
write no bytes, contact no upstream, and close its side; a nonempty
partial request without the terminator is instead treated as a complete
request and forwarded. -/
theorem tcp_nothing_read_silent (chunks : List (List Byte)) (up : UpstreamResult)
    (cache : Cache) (h : readRequest chunks = []) :
    (handleTcp chunks up cache).writes = [] ∧
    (handleTcp chunks up cache).upstream = false ∧
    (handleTcp chunks up cache).tag = .quiet := by
  simp [handleTcp, h]

/-- C7 amended witness: the peer closes immediately (first recv
returns empty). -/
theorem tcp_nothing_read_silent_witness :
    (handleTcp [[]] (.ok [72]) []).writes = [] ∧
    (handleTcp [[]] (.ok [72]) []).upstream = false ∧
    (handleTcp [[]] (.ok [72]) []).tag = .quiet :=
  tcp_nothing_read_silent [[]] (.ok [72]) [] (by decide)

/-- C9: when the upstream closes without sending any byte on a MISS,
the handler performs one `sendall` of the empty byte string (zero bytes
reach the client), stores the empty response under the request key —
the lookup distinguishes this `some []` binding from an absent key —
and any later handling of the same raw request bytes, after arbitrary
interleaved traffic and with any upstream behaviour, is a HIT that
writes zero bytes and opens no upstream connection. -/
theorem tcp_empty_response_cached (chunks : List (List Byte)) (cache : Cache)
    (traffic : List (List (List Byte) × UpstreamResult)) (up2 : UpstreamResult)
    (hne : readRequest chunks ≠ [])
    (hmiss : cacheGet cache (readRequest chunks) = none) :
    (handleTcp chunks (.ok []) cache).writes = [[]] ∧
    cacheGet (handleTcp chunks (.ok []) cache).cache (readRequest chunks) = some [] ∧
    (handleTcp chunks up2
        (runMany traffic (handleTcp chunks (.ok []) cache).cache)).tag = .hit ∧
    (handleTcp chunks up2
        (runMany traffic (handleTcp chunks (.ok []) cache).cache)).upstream = false ∧
    (handleTcp chunks up2
        (runMany traffic (handleTcp chunks (.ok []) cache).cache)).writes = [[]] := by
  have hget : cacheGet (handleTcp chunks (.ok []) cache).cache (readRequest chunks)
      = some [] := by
    simp [handleTcp, hne, hmiss, cacheGet_store_self]
  have h1 : (handleTcp chunks (.ok []) cache).cache
      = cacheStore cache (readRequest chunks) [] := by
    simp [handleTcp, hne, hmiss]
  have hget2 : cacheGet (runMany traffic (cacheStore cache (readRequest chunks) []))
      (readRequest chunks) = some [] := by
    rw [← h1]
    exact cacheGet_runMany _ _ _ _ hget
  refine ⟨?_, hget, ?_, ?_, ?_⟩ <;> simp [handleTcp, hne, hmiss, hget2]

/-- C9 witness: concrete empty-response MISS, one unrelated request in
between, then the same request again against a failing upstream. -/
theorem tcp_empty_response_cached_witness :
    (handleTcp [[13, 10, 13, 10]] (.ok []) []).writes = [[]] ∧
    cacheGet (handleTcp [[13, 10, 13, 10]] (.ok []) []).cache
      (readRequest [[13, 10, 13, 10]]) = some [] ∧
    (handleTcp [[13, 10, 13, 10]] .failed
        (runMany [([[70, 13, 10, 13, 10]], .ok [5])]
          (handleTcp [[13, 10, 13, 10]] (.ok []) []).cache)).tag = .hit ∧
    (handleTcp [[13, 10, 13, 10]] .failed
        (runMany [([[70, 13, 10, 13, 10]], .ok [5])]
          (handleTcp [[13, 10, 13, 10]] (.ok []) []).cache)).upstream = false ∧
    (handleTcp [[13, 10, 13, 10]] .failed
        (runMany [([[70, 13, 10, 13, 10]], .ok [5])]
          (handleTcp [[13, 10, 13, 10]] (.ok []) []).cache)).writes = [[]] :=
  tcp_empty_response_cached [[13, 10, 13, 10]] [] [([[70, 13, 10, 13, 10]], .ok [5])]
    .failed (by decide) (by decide)

/-- A buffer all of whose bytes are 65 never contains the CRLFCRLF
terminator. -/
theorem hasTerminator_of_all65 (l : List Byte) (h : ∀ x ∈ l, x = 65) :
    hasTerminator l = false := by
  induction l with
  | nil => rfl
  | cons a t ih =>
      have ha : a = 65 := h a (List.mem_cons_self a t)
      have ht : ∀ x ∈ t, x = 65 := fun x hx => h x (List.mem_cons_of_mem a hx)
      simp [hasTerminator, startsWith, ha, ih ht]

/-- The reading loop consumes every chunk when every chunk is nonempty
and no accumulated buffer ever contains the terminator: there is no
other stopping condition, in particular no size bound. -/
theorem readRequestAux_consumes_all (cs : List (List Byte)) (acc : List Byte)
    (hne : ∀ c ∈ cs, c ≠ [])
    (hterm : ∀ k, k ≤ cs.length → hasTerminator (acc ++ (cs.take k).flatten) = false) :
    readRequestAux acc cs = acc ++ cs.flatten := by
  induction cs generalizing acc with
  | nil => simp [readRequestAux]
  | cons c cs ih =>
      have hc : c ≠ [] := hne c (List.mem_cons_self _ _)
      have hc2 : c.isEmpty = false := by
        cases c with
        | nil => exact absurd rfl hc
        | cons a t => rfl
      have h1 : hasTerminator (acc ++ c) = false := by
        have := hterm 1 (by simp)
        simpa using this
      have hne2 : ∀ d ∈ cs, d ≠ [] := fun d hd => hne d (List.mem_cons_of_mem c hd)
      have hterm2 : ∀ k, k ≤ cs.length →
          hasTerminator ((acc ++ c) ++ (cs.take k).flatten) = false := by
        intro k hk
        have := hterm (k + 1) (by simpa using Nat.succ_le_succ hk)
        simpa [List.append_assoc] using this
      calc readRequestAux acc (c :: cs)
          = readRequestAux (acc ++ c) cs := by
            simp [readRequestAux, hc2, h1]
        _ = (acc ++ c) ++ cs.flatten := ih (acc ++ c) hne2 hterm2
        _ = acc ++ (c :: cs).flatten := by simp [List.append_assoc]

/-- C6 counterexample: three inbound chunks of 40000 bytes each, none
containing the terminator.  After the second chunk the accumulated
buffer holds 80000 bytes — beyond the claimed 64 KiB safety bound —
with no terminator, yet the read loop does not stop there: it consumes
the third chunk as well, ending with a 120000-byte request instead of
the 80000 bytes read when the bound was crossed.  The source loop has
no size check at all. -/
theorem tcp_read_cap_cx :
    hasTerminator (List.replicate 40000 65 ++ List.replicate 40000 65) = false ∧
    (List.replicate 40000 65 ++ List.replicate 40000 65).length = 80000 ∧
    (readRequest [List.replicate 40000 65, List.replicate 40000 65,
        List.replicate 40000 65]).length = 120000 := by
  have hrep_ne : (List.replicate 40000 (65 : Byte)) ≠ [] := by
    intro h
    have h2 : (List.replicate 40000 (65 : Byte)).length = 40000 :=
      List.length_replicate _ _
    rw [h] at h2
    simp at h2
  refine ⟨?_, ?_, ?_⟩
  · apply hasTerminator_of_all65
    intro x hx
    rcases List.mem_append.mp hx with h | h <;> exact List.eq_of_mem_replicate h
  · rw [List.length_append, List.length_replicate]
  · rw [readRequest, readRequestAux_consumes_all]
    · rw [List.nil_append, List.flatten_cons, List.flatten_cons, List.flatten_cons,
        List.flatten_nil, List.append_nil, List.length_append, List.length_append,
        List.length_replicate]
    · intro c hc
      simp only [List.mem_cons, List.not_mem_nil, or_false] at hc
      rcases hc with h | h | h <;> subst h <;> exact hrep_ne
    · intro k hk
      apply hasTerminator_of_all65
      intro x hx
      simp only [List.nil_append] at hx
      obtain ⟨l, hl, hxl⟩ := List.mem_flatten.mp hx
      have hmem : l ∈ [List.replicate 40000 65, List.replicate 40000 65,
          List.replicate 40000 (65 : Byte)] := List.mem_of_mem_take hl
      simp only [List.mem_cons, List.not_mem_nil, or_false] at hmem
      rcases hmem with h | h | h <;> subst h <;> exact List.eq_of_mem_replicate hxl

/-- C6 amended: the read loop of `handle_tcp_client` has no size cap —
its only stopping conditions are the terminator appearing in the
accumulated buffer and the peer closing the connection (an empty recv).
As long as nonempty terminator-free chunks keep arriving, every one of
them is accumulated, so the request buffer equals the entire inbound
stream and grows without bound with it. -/
theorem tcp_read_no_cap (chunks : List (List Byte))
    (hne : ∀ c ∈ chunks, c ≠ [])
    (hterm : ∀ k, k ≤ chunks.length → hasTerminator ((chunks.take k).flatten) = false) :
    readRequest chunks = chunks.flatten := by
  have := readRequestAux_consumes_all chunks [] hne (by simpa using hterm)
  simpa [readRequest] using this

/-- C6 amended witness: two one-byte terminator-free chunks are both
accumulated. -/
theorem tcp_read_no_cap_witness :
    readRequest [[65], [65]] = ([[65], [65]] : List (List Byte)).flatten :=
  tcp_read_no_cap [[65], [65]] (by decide) (by decide)

/-- Every iteration of the UDP loop body returns normally: each socket
call of the body is wrapped in a try-block of the source whose except
clauses cover every exception kind, so no exception escapes an
iteration. -/
theorem udpIter_ok (target : Addr) (env : UdpEnv) :
    ∃ out, udpIter target env = .ok out := by
  obtain ⟨rc, su, ru, sb, t0, t1⟩ := env
  rcases rc with e | p
  · cases e
    · exact ⟨_, rfl⟩
    · exact ⟨_, rfl⟩
  · obtain ⟨data, caddr⟩ := p
    rcases su with e | u
    · exact ⟨_, rfl⟩
    · rcases ru with e | q
      · cases e
        · exact ⟨_, rfl⟩
        · exact ⟨_, rfl⟩
      · obtain ⟨resp, saddr⟩ := q
        rcases sb with e | u2
        · exact ⟨_, rfl⟩
        · exact ⟨_, rfl⟩

/-- C3: with a responsive upstream — the client datagram is received,
both sends succeed, and the reply arrives from the upstream address —
one UDP iteration forwards exactly the payload `P` to the upstream
address, then sends the reply bytes unchanged to the original sender,
and the logged RTT, computed as `t1 - t0` from the two clock readings
taken in program order (the later reading at least the earlier), is
nonnegative. -/
theorem udp_roundtrip_exact (target caddr : Addr) (P resp : List Byte)
    (env : UdpEnv)
    (h1 : env.recvClient = .ok (P, caddr))
    (h2 : env.sendUp = .ok ())
    (h3 : env.recvUp = .ok (resp, target))
    (h4 : env.sendBack = .ok ())
    (ht : env.t0 ≤ env.t1) :
    udpIter target env = .ok ⟨[(P, target), (resp, caddr)],
      .relayed caddr target P.length (Int.ofNat env.t1 - Int.ofNat env.t0)⟩ ∧
    0 ≤ Int.ofNat env.t1 - Int.ofNat env.t0 := by
  constructor
  · simp only [udpIter, h1, h2, h3, h4]
  · exact sub_nonneg.mpr (Int.ofNat_le.mpr ht)

/-- C3 witness at a concrete payload, addresses and clock readings. -/
theorem udp_roundtrip_exact_witness :
    udpIter (2, 9000) ⟨.ok ([7, 8], (5, 1234)), .ok (),
        .ok ([7, 8], (2, 9000)), .ok (), 100, 103⟩
      = .ok ⟨[([7, 8], (2, 9000)), ([7, 8], (5, 1234))],
        .relayed (5, 1234) (2, 9000) 2 (Int.ofNat 103 - Int.ofNat 100)⟩ ∧
    (0 : Int) ≤ Int.ofNat 103 - Int.ofNat 100 :=
  udp_roundtrip_exact (2, 9000) (5, 1234) [7, 8] [7, 8]
    ⟨.ok ([7, 8], (5, 1234)), .ok (), .ok ([7, 8], (2, 9000)), .ok (), 100, 103⟩
    rfl rfl rfl rfl (by decide)

/-- C4: the UDP relay loop survives every schedule of per-iteration
events — client-recv timeouts, receive failures, send failures in
either direction, replies or their absence: the runner never records a
loop death and runs exactly one iteration per scheduled environment. -/
theorem udp_loop_never_dies (target : Addr) (envs : List UdpEnv) :
    (udpLoopRun target envs).2 = false ∧
    (udpLoopRun target envs).1.length = envs.length := by
  induction envs with
  | nil => exact ⟨rfl, rfl⟩
  | cons e es ih =>
      obtain ⟨out, hout⟩ := udpIter_ok target e
      simp [udpLoopRun, hout, ih.1, ih.2]

/-- C5: when the upstream does not reply within the timeout, the
iteration emits a warning log line and sends nothing back to the
client — its only send is the forward to the upstream — and the loop
stays alive: a following iteration still runs. -/
theorem udp_upstream_timeout_drops (target caddr : Addr) (data : List Byte)
    (env env2 : UdpEnv)
    (h1 : env.recvClient = .ok (data, caddr))
    (h2 : env.sendUp = .ok ())
    (h3 : env.recvUp = .error .timedOut) :
    udpIter target env = .ok ⟨[(data, target)], .timeoutWarn caddr⟩ ∧
    (udpLoopRun target [env, env2]).2 = false ∧
    (udpLoopRun target [env, env2]).1.length = 2 := by
  have hiter : udpIter target env = .ok ⟨[(data, target)], .timeoutWarn caddr⟩ := by
    simp only [udpIter, h1, h2, h3]
  obtain ⟨out2, hout2⟩ := udpIter_ok target env2
  refine ⟨hiter, ?_, ?_⟩ <;> simp [udpLoopRun, hiter, hout2]

/-- C5 witness: concrete exchange whose upstream times out, followed by
a quiet iteration. -/
theorem udp_upstream_timeout_drops_witness :
    udpIter (2, 9000)
        ⟨.ok ([9], (5, 1)), .ok (), .error .timedOut, .ok (), 0, 0⟩
      = .ok ⟨[([9], (2, 9000))], .timeoutWarn (5, 1)⟩ ∧
    (udpLoopRun (2, 9000)
        [⟨.ok ([9], (5, 1)), .ok (), .error .timedOut, .ok (), 0, 0⟩,
         ⟨.error .timedOut, .ok (), .error .timedOut, .ok (), 0, 0⟩]).2 = false ∧
    (udpLoopRun (2, 9000)
        [⟨.ok ([9], (5, 1)), .ok (), .error .timedOut, .ok (), 0, 0⟩,
         ⟨.error .timedOut, .ok (), .error .timedOut, .ok (), 0, 0⟩]).1.length
      = 2 :=
  udp_upstream_timeout_drops (2, 9000) (5, 1) [9]
    ⟨.ok ([9], (5, 1)), .ok (), .error .timedOut, .ok (), 0, 0⟩
    ⟨.error .timedOut, .ok (), .error .timedOut, .ok (), 0, 0⟩
    rfl rfl rfl

/-- C10: the reply-wait `recvfrom` accepts a datagram from any sender:
even when the sender address differs from the upstream target — a
second client talking to the proxy during the wait — the iteration
forwards that datagram's payload to the first client as if it were the
upstream's reply, and the log line records the foreign sender as the
server address.  No sender check exists in the source. -/
theorem udp_no_sender_check (target caddr saddr : Addr) (data resp : List Byte)
    (env : UdpEnv)
    (h1 : env.recvClient = .ok (data, caddr))
    (h2 : env.sendUp = .ok ())
    (h3 : env.recvUp = .ok (resp, saddr))
    (h4 : env.sendBack = .ok ())
    (_hne : saddr ≠ target) :
    udpIter target env = .ok ⟨[(data, target), (resp, caddr)],
      .relayed caddr saddr data.length (Int.ofNat env.t1 - Int.ofNat env.t0)⟩ := by
  simp only [udpIter, h1, h2, h3, h4]

/-- C10 witness: a datagram from address (7, 7), distinct from the
upstream (2, 9000), is relayed to the waiting client. -/
theorem udp_no_sender_check_witness :
    udpIter (2, 9000)
        ⟨.ok ([9], (5, 1)), .ok (), .ok ([3, 4], (7, 7)), .ok (), 0, 0⟩
      = .ok ⟨[([9], (2, 9000)), ([3, 4], (5, 1))],
        .relayed (5, 1) (7, 7) 1 (Int.ofNat 0 - Int.ofNat 0)⟩ :=
  udp_no_sender_check (2, 9000) (5, 1) (7, 7) [9] [3, 4]
    ⟨.ok ([9], (5, 1)), .ok (), .ok ([3, 4], (7, 7)), .ok (), 0, 0⟩
    rfl rfl rfl rfl (by decide)

/-- C8 counterexample: a failed TCP bind leaves the process hanging
(the UDP listener thread runs forever and main blocks joining it), a
failed UDP bind likewise, and even when both binds fail main returns
normally and the process exits with status 0 — in no case does the
process abort with a nonzero exit status. -/
theorem bind_failure_cx :
    mainProc false true = .hangs ∧
    mainProc true false = .hangs ∧
    mainProc false false = .exited 0 := by decide

/-- C8 amended: a bind failure terminates only that listener's daemon
thread, with the exception traceback printed by the threading runtime;
the process never aborts with a nonzero exit status — it either keeps
running with the surviving listener (main blocked in a join) or, when
both binds fail, exits with status 0.  The bind is attempted once and
never retried. -/
theorem bind_failure_never_nonzero (tcpBindOk udpBindOk : Bool) :
    mainProc tcpBindOk udpBindOk = .hangs ∨
    mainProc tcpBindOk udpBindOk = .exited 0 := by
  cases tcpBindOk <;> cases udpBindOk <;> simp [mainProc, listenerBody]
